import Mathlib

/-!
Verification development for the A3S cron scheduler engine
(`src/scheduler.rs`).  The engine's data model and operations are
shallowly embedded: UTC instants are `Nat`, asynchronous store and
executor calls become explicit state passing and result oracles, and
the event broadcast channel becomes an accumulated list of events.

The cron-expression parser, the store implementations and the
`CronJob`/`JobExecution` constructors live in crate modules
(`crate::parser`, `crate::store`, `crate::types`) that are not part of
the sources under verification; those are modelled from the spec and
marked as such.  Everything else is translated from `scheduler.rs`.
-/

namespace CronSpec

/-- Job lifecycle status, from `crate::types::JobStatus` as used by
`scheduler.rs` (spec section 3). -/
inductive JobStatus : Type
  | Active
  | Paused
  | Running
  | Disabled
deriving Repr, DecidableEq

/-- Job execution mode, from `crate::types::JobType` (spec section 3). -/
inductive JobType : Type
  | Shell
  | Agent
deriving Repr, DecidableEq

/-- Terminal (or in-flight) status of one execution, from
`crate::types::ExecutionStatus` (spec section 3). -/
inductive ExecutionStatus : Type
  | Running
  | Success
  | Failed
  | Timeout
deriving Repr, DecidableEq

/-- Agent job configuration record, from `crate::types::AgentJobConfig`
as constructed in the scheduler tests (spec section 3). -/
structure AgentJobConfig : Type where
  model : String
  api_key : String
  workspace : Option String
  system_prompt : Option String
  base_url : Option String
deriving Repr, DecidableEq

/-- A cron job entity, from `crate::types::CronJob` (spec section 3);
instants are `Nat` UTC timestamps. -/
structure CronJob : Type where
  id : String
  name : String
  schedule : String
  job_type : JobType
  command : String
  agent_config : Option AgentJobConfig
  working_dir : Option String
  env : List (String × String)
  timeout_ms : Nat
  status : JobStatus
  next_run : Option Nat
  last_run : Option Nat
  run_count : Nat
  fail_count : Nat
  created_at : Nat
  updated_at : Nat
deriving Repr, DecidableEq

/-- One recorded execution of a job, from `crate::types::JobExecution`
(spec section 3). -/
structure JobExecution : Type where
  id : String
  job_id : String
  started_at : Nat
  finished_at : Option Nat
  status : ExecutionStatus
  exit_code : Option Int
  stdout : String
  stderr : String
  error : Option String
deriving Repr, DecidableEq

/-- Error kinds surfaced by the public API, from
`crate::types::CronError` (spec section 7). -/
inductive CronError : Type
  | InvalidSchedule (msg : String)
  | JobNotFound (id : String)
  | JobExists (name : String)
  | StorageError (msg : String)
  | Internal (msg : String)
deriving Repr, DecidableEq

/-- Scheduler events, from `SchedulerEvent` in `scheduler.rs`. -/
inductive SchedulerEvent : Type
  | Started
  | Stopped
  | JobStarted (job_id : String) (execution_id : String)
  | JobCompleted (job_id : String) (execution_id : String)
  | JobFailed (job_id : String) (execution_id : String) (error : String)
  | JobTimeout (job_id : String) (execution_id : String)
deriving Repr, DecidableEq

/-- Modelled from the spec: a parsed cron expression
(`crate::parser::CronExpression`, not under the verified sources) is
used by the engine only through `next_after`, which yields the next
fire instant strictly after the argument, or none when no occurrence
exists within the search horizon (spec section 4.1). -/
structure CronExpr : Type where
  next_after : Nat → Option Nat

/-- Modelled from the spec: `CronExpression::parse` lives in
`crate::parser`, not under the verified sources.  The engine is
parameterized by the parse function `String → Option CronExpr`;
parse failure surfaces as `InvalidSchedule` (spec sections 4.1, 7). -/
def parseE (parse : String → Option CronExpr) (s : String) :
    Except CronError CronExpr :=
  match parse s with
  | some expr => Except.ok expr
  | none => Except.error (CronError.InvalidSchedule s)

/-- Modelled from the spec: `JobExecution::new` (`crate::types`, not
under the verified sources) creates a fresh execution with
`started_at = now` and status `Running` (spec section 4.5, step 1). -/
def JobExecution.new (execId : String) (jobId : String) (now : Nat) :
    JobExecution :=
  { id := execId
    job_id := jobId
    started_at := now
    finished_at := none
    status := ExecutionStatus.Running
    exit_code := none
    stdout := ""
    stderr := ""
    error := none }

/-- Modelled from the spec: `JobExecution::complete` (`crate::types`)
records a finished body: `status = Success` iff `exit_code = 0`, else
`Failed`; `exit_code`, `stdout`, `stderr` stored verbatim
(spec section 4.5, step 5). -/
def JobExecution.complete (e : JobExecution) (code : Int)
    (out : String) (err : String) (now : Nat) : JobExecution :=
  { e with
    finished_at := some now
    exit_code := some code
    stdout := out
    stderr := err
    status := if code = 0 then ExecutionStatus.Success else ExecutionStatus.Failed }

/-- Modelled from the spec: `JobExecution::fail` (`crate::types`)
records an I/O-style failure with a human-readable message
(spec section 4.5, step 5). -/
def JobExecution.fail (e : JobExecution) (msg : String) (now : Nat) :
    JobExecution :=
  { e with
    finished_at := some now
    status := ExecutionStatus.Failed
    error := some msg }

/-- Modelled from the spec: `JobExecution::timeout` (`crate::types`)
records an elapsed timeout (spec section 4.5, step 5). -/
def JobExecution.timeout (e : JobExecution) (now : Nat) : JobExecution :=
  { e with
    finished_at := some now
    status := ExecutionStatus.Timeout
    error := some "execution timed out" }

/-- Modelled from the spec: `CronJob::new` (`crate::types`) mints a job
with the given fresh id, `job_type = Shell`, `status = Active`, zero
counters and timestamps `now` (spec section 4.4, `add_job`).  The
default `timeout_ms` is positive but otherwise unspecified by the
spec; 60000 is used here. -/
def CronJob.new (freshId : String) (name : String) (schedule : String)
    (command : String) (now : Nat) : CronJob :=
  { id := freshId
    name := name
    schedule := schedule
    job_type := JobType.Shell
    command := command
    agent_config := none
    working_dir := none
    env := []
    timeout_ms := 60000
    status := JobStatus.Active
    next_run := none
    last_run := none
    run_count := 0
    fail_count := 0
    created_at := now
    updated_at := now }

/-- The store contract (`crate::store::CronStore`), over an explicit
state type.  Per the spec (section 4.2) every operation may fail with
`StorageError`; failures carry the message and a failed write leaves
the state unchanged (the engine threads the pre-call state on error). -/
structure CronStore (σ : Type) : Type where
  save_job : σ → CronJob → Except String σ
  load_job : σ → String → Except String (Option CronJob)
  find_job_by_name : σ → String → Except String (Option CronJob)
  list_jobs : σ → Except String (List CronJob)
  save_execution : σ → JobExecution → Except String σ

/-- Modelled from the spec: the agent executor contract
(`crate::types::AgentExecutor`, spec section 4.3) — a single operation
`(config, prompt, working_dir)` to `Ok text` or `Err message`. -/
def AgentExecutor : Type :=
  AgentJobConfig → String → String → Except String String

/-- Environment of one `execute_job` call: the freshly minted execution
id, the wall-clock instants observed at start and at completion, and
oracles for the effectful body — whether the timeout race elapsed, the
shell subprocess outcome, and the registered agent executor. -/
structure ExecEnv : Type where
  execId : String
  startNow : Nat
  finishNow : Nat
  timedOut : Bool
  shellResult : Except String (Int × String × String)
  agent_executor : Option AgentExecutor

/-- The mode-specific execution body raced against the timeout
(`scheduler.rs` lines 294-344).  `none` is an elapsed timeout;
`some (Except.error msg)` an I/O-style failure; `some (Except.ok
(code, out, err))` a completed body.  For agent mode a missing
executor or missing `agent_config` synthesizes an I/O-style error, and
an executor result is mapped `Ok text` to `(0, text, "")` and
`Err e` to `(1, "", e)`. -/
def runBody (env : ExecEnv) (job : CronJob) (working_dir : String) :
    Option (Except String (Int × String × String)) :=
  if env.timedOut then none
  else some (
    match job.job_type with
    | JobType.Agent =>
      match env.agent_executor with
      | none => Except.error "No agent executor configured for agent-mode cron job"
      | some ex =>
        match job.agent_config with
        | none => Except.error "Agent job missing agent_config"
        | some config =>
          match ex config job.command working_dir with
          | Except.ok text => Except.ok (0, text, "")
          | Except.error e => Except.ok (1, "", e)
    | JobType.Shell => env.shellResult)

/-- Result of an engine operation that executes a job: the returned
value, the final store state, and the events sent on the broadcast
channel in order. -/
structure ExecResult (σ : Type) : Type where
  result : Except CronError JobExecution
  state : σ
  events : List SchedulerEvent

/-- Outcome classification of the raced body (`scheduler.rs` lines
346-359): an elapsed timeout marks the execution `Timeout` and emits
`JobTimeout`; an I/O-style failure marks it `Failed` with the message
prefixed by `Failed to execute command: `; a completed body records
`(exit_code, stdout, stderr)` via `complete`.  Returns the processed
execution and the events emitted during classification. -/
def classifyBody (env : ExecEnv) (job : CronJob) (execution0 : JobExecution)
    (working_dir : String) : JobExecution × List SchedulerEvent :=
  match runBody env job working_dir with
  | none =>
      (execution0.timeout env.finishNow,
       [SchedulerEvent.JobTimeout job.id execution0.id])
  | some (Except.error e) =>
      (execution0.fail ("Failed to execute command: " ++ e) env.finishNow, [])
  | some (Except.ok (code, out, err)) =>
      (execution0.complete code out err env.finishNow, [])

/-- Job statistics update (`scheduler.rs` lines 364-388): clear status
to `Active`, set `last_run` to the execution's start, refresh
`updated_at`, bump `run_count` on `Success` (emitting `JobCompleted`)
and `fail_count` otherwise (emitting `JobFailed`), then best-effort
recompute `next_run` from now — on parse failure of the (unchanged)
schedule leave it untouched.  Returns the updated job and the events
emitted during the update. -/
def updateStats (parse : String → Option CronExpr) (job : CronJob)
    (execution : JobExecution) (now : Nat) :
    CronJob × List SchedulerEvent :=
  let base := { job with
    status := JobStatus.Active
    last_run := some execution.started_at
    updated_at := now }
  let step2 :=
    if execution.status = ExecutionStatus.Success then
      ({ base with run_count := base.run_count + 1 },
       [SchedulerEvent.JobCompleted job.id execution.id])
    else
      ({ base with fail_count := base.fail_count + 1 },
       [SchedulerEvent.JobFailed job.id execution.id (execution.error.getD "")])
  match parse job.schedule with
  | some expr => ({ step2.1 with next_run := expr.next_after now }, step2.2)
  | none => step2

/-- The `execute_job` pipeline (`scheduler.rs` lines 269-406): create
the execution, emit `JobStarted`, persist the job with status
`Running`, run the body under the timeout and classify the outcome,
persist the execution, update job statistics, and persist the job.
A storage error is returned immediately via the Rust question-mark
operator. -/
def execute_job {σ : Type} (st : CronStore σ)
    (parse : String → Option CronExpr) (workspace : String)
    (env : ExecEnv) (s : σ) (job : CronJob) : ExecResult σ :=
  let execution0 := JobExecution.new env.execId job.id env.startNow
  let events0 := [SchedulerEvent.JobStarted job.id execution0.id]
  let running_job := { job with status := JobStatus.Running }
  match st.save_job s running_job with
  | Except.error m => ⟨Except.error (CronError.StorageError m), s, events0⟩
  | Except.ok s1 =>
    let step := classifyBody env job execution0 (job.working_dir.getD workspace)
    let execution := step.1
    let events1 := events0 ++ step.2
    match st.save_execution s1 execution with
    | Except.error m => ⟨Except.error (CronError.StorageError m), s1, events1⟩
    | Except.ok s2 =>
      let step2 := updateStats parse job execution env.finishNow
      let events2 := events1 ++ step2.2
      match st.save_job s2 step2.1 with
      | Except.error m => ⟨Except.error (CronError.StorageError m), s2, events2⟩
      | Except.ok s3 => ⟨Except.ok execution, s3, events2⟩

/-- Manual run (`run_job`, `scheduler.rs` lines 258-266): load the job,
`JobNotFound` when absent, otherwise delegate to `execute_job`
regardless of the stored status. -/
def run_job {σ : Type} (st : CronStore σ)
    (parse : String → Option CronExpr) (workspace : String)
    (env : ExecEnv) (s : σ) (id : String) : ExecResult σ :=
  match st.load_job s id with
  | Except.error m => ⟨Except.error (CronError.StorageError m), s, []⟩
  | Except.ok none => ⟨Except.error (CronError.JobNotFound id), s, []⟩
  | Except.ok (some job) => execute_job st parse workspace env s job

/-- Result of a manager operation that returns the affected job. -/
structure OpResult (σ : Type) : Type where
  result : Except CronError CronJob
  state : σ

/-- Job creation (`add_job`, `scheduler.rs` lines 100-119): validate
the schedule, reject a duplicate name, mint the job, set `next_run`
from now and `working_dir` to the manager workspace, persist. -/
def add_job {σ : Type} (st : CronStore σ)
    (parse : String → Option CronExpr) (workspace : String)
    (freshId : String) (now : Nat) (s : σ)
    (name : String) (schedule : String) (command : String) : OpResult σ :=
  match parseE parse schedule with
  | Except.error e => ⟨Except.error e, s⟩
  | Except.ok expr =>
    match st.find_job_by_name s name with
    | Except.error m => ⟨Except.error (CronError.StorageError m), s⟩
    | Except.ok (some _) => ⟨Except.error (CronError.JobExists name), s⟩
    | Except.ok none =>
      let job := { CronJob.new freshId name schedule command now with
        next_run := expr.next_after now
        working_dir := some workspace }
      match st.save_job s job with
      | Except.error m => ⟨Except.error (CronError.StorageError m), s⟩
      | Except.ok s1 => ⟨Except.ok job, s1⟩

/-- Job update (`update_job`, `scheduler.rs` lines 166-198): load the
job, apply each supplied field — a supplied schedule is validated and
`next_run` recomputed from now — refresh `updated_at`, persist. -/
def update_job {σ : Type} (st : CronStore σ)
    (parse : String → Option CronExpr) (now : Nat) (s : σ) (id : String)
    (schedule : Option String) (command : Option String)
    (timeout_ms : Option Nat) : OpResult σ :=
  match st.load_job s id with
  | Except.error m => ⟨Except.error (CronError.StorageError m), s⟩
  | Except.ok none => ⟨Except.error (CronError.JobNotFound id), s⟩
  | Except.ok (some job0) =>
    let afterSchedule : Except CronError CronJob :=
      match schedule with
      | none => Except.ok job0
      | some sch =>
        match parseE parse sch with
        | Except.error e => Except.error e
        | Except.ok expr =>
          Except.ok { job0 with
            schedule := sch
            next_run := expr.next_after now }
    match afterSchedule with
    | Except.error e => ⟨Except.error e, s⟩
    | Except.ok job1 =>
      let job2 := match command with
        | some c => { job1 with command := c }
        | none => job1
      let job3 := match timeout_ms with
        | some t => { job2 with timeout_ms := t }
        | none => job2
      let job4 := { job3 with updated_at := now }
      match st.save_job s job4 with
      | Except.error m => ⟨Except.error (CronError.StorageError m), s⟩
      | Except.ok s1 => ⟨Except.ok job4, s1⟩

/-- Pause (`pause_job`, `scheduler.rs` lines 201-214): load, set status
`Paused`, refresh `updated_at`, persist. -/
def pause_job {σ : Type} (st : CronStore σ) (now : Nat) (s : σ)
    (id : String) : OpResult σ :=
  match st.load_job s id with
  | Except.error m => ⟨Except.error (CronError.StorageError m), s⟩
  | Except.ok none => ⟨Except.error (CronError.JobNotFound id), s⟩
  | Except.ok (some job0) =>
    let job1 := { job0 with status := JobStatus.Paused, updated_at := now }
    match st.save_job s job1 with
    | Except.error m => ⟨Except.error (CronError.StorageError m), s⟩
    | Except.ok s1 => ⟨Except.ok job1, s1⟩

/-- Resume (`resume_job`, `scheduler.rs` lines 217-236): load, set
status `Active`, refresh `updated_at`, recompute `next_run` from now
when the stored schedule parses (left unchanged otherwise), persist. -/
def resume_job {σ : Type} (st : CronStore σ)
    (parse : String → Option CronExpr) (now : Nat) (s : σ)
    (id : String) : OpResult σ :=
  match st.load_job s id with
  | Except.error m => ⟨Except.error (CronError.StorageError m), s⟩
  | Except.ok none => ⟨Except.error (CronError.JobNotFound id), s⟩
  | Except.ok (some job0) =>
    let job1 := { job0 with status := JobStatus.Active, updated_at := now }
    let job2 := match parse job1.schedule with
      | some expr => { job1 with next_run := expr.next_after now }
      | none => job1
    match st.save_job s job2 with
    | Except.error m => ⟨Except.error (CronError.StorageError m), s⟩
    | Except.ok s1 => ⟨Except.ok job2, s1⟩

/-- One iteration of the scheduler tick loop dispatches exactly the
listed jobs that pass this check (`scheduler.rs` lines 449-457): the
status must be `Active` and `next_run` must be present and at or
before now. -/
def dueNow (now : Nat) (job : CronJob) : Bool :=
  job.status == JobStatus.Active &&
    (match job.next_run with
     | some t => decide (t ≤ now)
     | none => false)

/-- Outcome of one iteration of the tick loop: the jobs handed to
`execute_job`, and whether the loop continues to the next tick. -/
structure TickOutcome : Type where
  dispatched : List CronJob
  continues : Bool
deriving Repr, DecidableEq

/-- One iteration of the background tick loop (`scheduler.rs` lines
429-473): exit when the running flag is down; list jobs — on a
storage error log and continue to the next tick dispatching nothing —
and dispatch `execute_job` for each due job. -/
def tick (runningFlag : Bool) (listResult : Except String (List CronJob))
    (now : Nat) : TickOutcome :=
  if runningFlag then
    match listResult with
    | Except.error _ => ⟨[], true⟩
    | Except.ok jobs => ⟨jobs.filter (dueNow now), true⟩
  else ⟨[], false⟩

/-- Modelled from the spec: state of the in-memory store
(`crate::store::MemoryCronStore`, spec section 4.2, not under the
verified sources): the persisted jobs and the append-only execution
log. -/
structure MemState : Type where
  jobs : List CronJob
  execs : List JobExecution
deriving Repr, DecidableEq

/-- Upsert by id into the persisted job list: replace the entry with
the same id, or append. -/
def upsertJob : List CronJob → CronJob → List CronJob
  | [], j => [j]
  | x :: xs, j => if x.id = j.id then j :: xs else x :: upsertJob xs j

/-- Modelled from the spec: the in-memory store implementation
(spec section 4.2) — upsert by id with a name index, append-only
executions, no failures. -/
def memStore : CronStore MemState :=
  { save_job := fun s j => Except.ok { s with jobs := upsertJob s.jobs j }
    load_job := fun s id => Except.ok (s.jobs.find? (fun x => x.id == id))
    find_job_by_name := fun s n => Except.ok (s.jobs.find? (fun x => x.name == n))
    list_jobs := fun s => Except.ok s.jobs
    save_execution := fun s e => Except.ok { s with execs := s.execs ++ [e] } }

/-- A store identical to the in-memory store except that persisting an
execution fails — the fault injected to examine the engine's storage
error paths. -/
def failExecStore : CronStore MemState :=
  { memStore with save_execution := fun _ _ => Except.error "disk full" }

/-- A store whose job writes always fail — the fault injected to
examine the engine's behaviour when the initial `Running` save fails. -/
def failSaveStore : CronStore MemState :=
  { memStore with save_job := fun _ _ => Except.error "disk full" }

/-- A concrete shell job used in concrete evaluations. -/
def jobA : CronJob :=
  { CronJob.new "job-1" "backup" "* * * * *" "echo hi" 0 with
    next_run := some 60
    working_dir := some "/ws" }

/-- A concrete execution environment whose shell body succeeds with
exit code 0. -/
def envA : ExecEnv :=
  { execId := "exec-1"
    startNow := 100
    finishNow := 101
    timedOut := false
    shellResult := Except.ok (0, "hi", "")
    agent_executor := none }

/-- Looking a job up by its id after an upsert of that job yields
exactly the upserted copy. -/
theorem find_upsertJob (l : List CronJob) (j : CronJob) :
    (upsertJob l j).find? (fun x => x.id == j.id) = some j := by
  induction l with
  | nil => simp [upsertJob]
  | cons x xs ih =>
    unfold upsertJob
    by_cases h : x.id = j.id
    · simp [h]
    · simp [h, ih]

/-- Variant of `find_upsertJob` with the queried id given as an equal
string. -/
theorem find_upsertJob_of_id (l : List CronJob) (j : CronJob)
    (idq : String) (h : j.id = idq) :
    (upsertJob l j).find? (fun x => x.id == idq) = some j := by
  subst h
  exact find_upsertJob l j

/-- The execution record the `execute_job` pipeline produces for a
job in a given environment: the fresh execution classified by the
raced body's outcome. -/
def classifiedExec (env : ExecEnv) (ws : String) (job : CronJob) :
    JobExecution :=
  (classifyBody env job (JobExecution.new env.execId job.id env.startNow)
    (job.working_dir.getD ws)).1

/-- Over the in-memory store, `execute_job` never fails: it returns the
classified execution, upserts the `Running` copy and then the
stats-updated copy, appends the execution to the log, and emits
`JobStarted` followed by the classification and terminal events. -/
theorem execute_job_memStore_eq (parse : String → Option CronExpr)
    (ws : String) (env : ExecEnv) (s : MemState) (job : CronJob) :
    execute_job memStore parse ws env s job =
      { result := Except.ok (classifiedExec env ws job)
        state :=
          { jobs := upsertJob
              (upsertJob s.jobs { job with status := JobStatus.Running })
              (updateStats parse job (classifiedExec env ws job) env.finishNow).1
            execs := s.execs ++ [classifiedExec env ws job] }
        events := [SchedulerEvent.JobStarted job.id env.execId] ++
          (classifyBody env job (JobExecution.new env.execId job.id env.startNow)
            (job.working_dir.getD ws)).2 ++
          (updateStats parse job (classifiedExec env ws job) env.finishNow).2 } := rfl

/-- The stats-updated job keeps every field the update does not touch,
clears status to `Active`, records `last_run` and refreshes
`updated_at`. -/
theorem updateStats_fields (parse : String → Option CronExpr)
    (job : CronJob) (ex : JobExecution) (now : Nat) :
    (updateStats parse job ex now).1.id = job.id ∧
    (updateStats parse job ex now).1.name = job.name ∧
    (updateStats parse job ex now).1.schedule = job.schedule ∧
    (updateStats parse job ex now).1.job_type = job.job_type ∧
    (updateStats parse job ex now).1.command = job.command ∧
    (updateStats parse job ex now).1.agent_config = job.agent_config ∧
    (updateStats parse job ex now).1.working_dir = job.working_dir ∧
    (updateStats parse job ex now).1.env = job.env ∧
    (updateStats parse job ex now).1.timeout_ms = job.timeout_ms ∧
    (updateStats parse job ex now).1.status = JobStatus.Active ∧
    (updateStats parse job ex now).1.last_run = some ex.started_at ∧
    (updateStats parse job ex now).1.created_at = job.created_at ∧
    (updateStats parse job ex now).1.updated_at = now := by
  unfold updateStats
  split <;> split <;> simp_all

/-- On a successful execution, exactly `run_count` is bumped. -/
theorem updateStats_success (parse : String → Option CronExpr)
    (job : CronJob) (ex : JobExecution) (now : Nat)
    (h : ex.status = ExecutionStatus.Success) :
    (updateStats parse job ex now).1.run_count = job.run_count + 1 ∧
    (updateStats parse job ex now).1.fail_count = job.fail_count := by
  unfold updateStats
  split <;> split <;> simp_all

/-- On a non-successful execution, exactly `fail_count` is bumped. -/
theorem updateStats_not_success (parse : String → Option CronExpr)
    (job : CronJob) (ex : JobExecution) (now : Nat)
    (h : ex.status ≠ ExecutionStatus.Success) :
    (updateStats parse job ex now).1.fail_count = job.fail_count + 1 ∧
    (updateStats parse job ex now).1.run_count = job.run_count := by
  unfold updateStats
  split <;> split <;> simp_all

/-- When the schedule parses, `next_run` is recomputed from now. -/
theorem updateStats_next_run_parsed (parse : String → Option CronExpr)
    (job : CronJob) (ex : JobExecution) (now : Nat) (expr : CronExpr)
    (h : parse job.schedule = some expr) :
    (updateStats parse job ex now).1.next_run = expr.next_after now := by
  unfold updateStats
  simp [h]

/-- When the schedule fails to parse, `next_run` is left unchanged. -/
theorem updateStats_next_run_unparsed (parse : String → Option CronExpr)
    (job : CronJob) (ex : JobExecution) (now : Nat)
    (h : parse job.schedule = none) :
    (updateStats parse job ex now).1.next_run = job.next_run := by
  unfold updateStats
  simp only [h]
  split <;> simp

/-- An elapsed timeout classifies the execution as `Timeout` and emits
`JobTimeout`. -/
theorem classifyBody_timedOut (env : ExecEnv) (job : CronJob)
    (e0 : JobExecution) (wd : String) (h : env.timedOut = true) :
    classifyBody env job e0 wd =
      (e0.timeout env.finishNow, [SchedulerEvent.JobTimeout job.id e0.id]) := by
  simp [classifyBody, runBody, h]

/-- A completed shell body is recorded verbatim via `complete`. -/
theorem classifyBody_shell_completed (env : ExecEnv) (job : CronJob)
    (e0 : JobExecution) (wd : String) (code : Int) (out : String)
    (err : String) (h1 : env.timedOut = false)
    (h2 : job.job_type = JobType.Shell)
    (h3 : env.shellResult = Except.ok (code, out, err)) :
    classifyBody env job e0 wd = (e0.complete code out err env.finishNow, []) := by
  simp [classifyBody, runBody, h1, h2, h3]

/-- An I/O-style shell failure is recorded via `fail` with the
prefixed message. -/
theorem classifyBody_shell_io_failure (env : ExecEnv) (job : CronJob)
    (e0 : JobExecution) (wd : String) (m : String)
    (h1 : env.timedOut = false) (h2 : job.job_type = JobType.Shell)
    (h3 : env.shellResult = Except.error m) :
    classifyBody env job e0 wd =
      (e0.fail ("Failed to execute command: " ++ m) env.finishNow, []) := by
  simp [classifyBody, runBody, h1, h2, h3]

/-- An agent body whose executor returns text is recorded as exit
code 0 with the text on stdout and empty stderr. -/
theorem classifyBody_agent_ok (env : ExecEnv) (job : CronJob)
    (e0 : JobExecution) (wd : String) (config : AgentJobConfig)
    (ex : AgentExecutor) (text : String) (h1 : env.timedOut = false)
    (h2 : job.job_type = JobType.Agent)
    (h3 : env.agent_executor = some ex)
    (h4 : job.agent_config = some config)
    (h5 : ex config job.command wd = Except.ok text) :
    classifyBody env job e0 wd = (e0.complete 0 text "" env.finishNow, []) := by
  simp [classifyBody, runBody, h1, h2, h3, h4, h5]

/-- An agent body whose executor returns an error message is recorded
as exit code 1 with the message on stderr and empty stdout. -/
theorem classifyBody_agent_err (env : ExecEnv) (job : CronJob)
    (e0 : JobExecution) (wd : String) (config : AgentJobConfig)
    (ex : AgentExecutor) (msg : String) (h1 : env.timedOut = false)
    (h2 : job.job_type = JobType.Agent)
    (h3 : env.agent_executor = some ex)
    (h4 : job.agent_config = some config)
    (h5 : ex config job.command wd = Except.error msg) :
    classifyBody env job e0 wd = (e0.complete 1 "" msg env.finishNow, []) := by
  simp [classifyBody, runBody, h1, h2, h3, h4, h5]

/-- An agent body with no registered executor synthesizes an I/O-style
failure. -/
theorem classifyBody_agent_no_executor (env : ExecEnv) (job : CronJob)
    (e0 : JobExecution) (wd : String) (h1 : env.timedOut = false)
    (h2 : job.job_type = JobType.Agent)
    (h3 : env.agent_executor = none) :
    classifyBody env job e0 wd =
      (e0.fail ("Failed to execute command: " ++
        "No agent executor configured for agent-mode cron job") env.finishNow,
       []) := by
  simp [classifyBody, runBody, h1, h2, h3]

/-- Every error produced inside `execute_job` is a `StorageError`. -/
theorem execute_job_error_storage {σ : Type} (st : CronStore σ)
    (parse : String → Option CronExpr) (ws : String) (env : ExecEnv)
    (s : σ) (job : CronJob) (e : CronError)
    (h : (execute_job st parse ws env s job).result = Except.error e) :
    ∃ m, e = CronError.StorageError m := by
  simp only [execute_job] at h
  cases h1 : st.save_job s { job with status := JobStatus.Running } with
  | error m =>
    rw [h1] at h
    simp at h
    first
    | exact ⟨m, h⟩
    | exact ⟨m, h.symm⟩
  | ok s1 =>
    rw [h1] at h
    simp only [] at h
    cases h2 : st.save_execution s1
        (classifyBody env job (JobExecution.new env.execId job.id env.startNow)
          (job.working_dir.getD ws)).1 with
    | error m =>
      rw [h2] at h
      simp at h
      first
      | exact ⟨m, h⟩
      | exact ⟨m, h.symm⟩
    | ok s2 =>
      rw [h2] at h
      simp only [] at h
      cases h3 : st.save_job s2
          (updateStats parse job
            (classifyBody env job (JobExecution.new env.execId job.id env.startNow)
              (job.working_dir.getD ws)).1 env.finishNow).1 with
      | error m =>
        rw [h3] at h
        simp at h
        first
        | exact ⟨m, h⟩
        | exact ⟨m, h.symm⟩
      | ok s3 =>
        rw [h3] at h
        simp at h

/-- A concrete environment whose timeout race elapsed. -/
def envT : ExecEnv := { envA with timedOut := true }

/-- Claim C1 (code bug): the spec demands that a storage error after
the job was persisted with status `Running` must not leave the stored
job in `Running` — the engine is to finally-clear the status on every
exit path of `execute_job`.  The code has no such finally-clear:
evaluated with a store whose `save_execution` fails after the
`Running` save succeeded, `execute_job` returns the storage error
while the persisted job remains wedged in status `Running`. -/
theorem C1_storage_failure_wedges_running :
    (execute_job failExecStore (fun _ => none) "/ws" envA
        ⟨[jobA], []⟩ jobA).result =
      Except.error (CronError.StorageError "disk full") ∧
    (execute_job failExecStore (fun _ => none) "/ws" envA
        ⟨[jobA], []⟩ jobA).state =
      ⟨[{ jobA with status := JobStatus.Running }], []⟩ :=
  ⟨rfl, rfl⟩

/-- Claim C10: `JobStarted` is emitted before any store write, so when
the initial save of the `Running` copy fails, `execute_job` returns
the storage error having emitted exactly `JobStarted` — no terminal
event for that execution id — and the store state is unchanged, so no
`JobExecution` record is persisted. -/
theorem C10_jobstarted_before_store_write (parse : String → Option CronExpr)
    (ws : String) (env : ExecEnv) (s : MemState) (job : CronJob) :
    execute_job failSaveStore parse ws env s job =
      ⟨Except.error (CronError.StorageError "disk full"), s,
       [SchedulerEvent.JobStarted job.id env.execId]⟩ := rfl

/-- Claim C7: `run_job` returns an error only for `JobNotFound` or
`StorageError`; a failure of the execution body — an elapsed timeout,
an I/O-style failure, a non-zero exit, a missing agent executor — is
never returned as an error but is encoded in the status and error
fields of the returned execution, shown over the never-failing
in-memory store, where a found job always yields `Except.ok`. -/
theorem C7_run_job_error_kinds {σ : Type} (st : CronStore σ)
    (parse : String → Option CronExpr) (ws : String) (env : ExecEnv)
    (s : σ) (id : String) (ms : MemState) (job : CronJob)
    (hfind : ms.jobs.find? (fun x => x.id == id) = some job) :
    (∀ e, (run_job st parse ws env s id).result = Except.error e →
      (∃ i, e = CronError.JobNotFound i) ∨
      (∃ m, e = CronError.StorageError m)) ∧
    (run_job memStore parse ws env ms id).result =
      Except.ok (classifiedExec env ws job) ∧
    (env.timedOut = true →
      (classifiedExec env ws job).status = ExecutionStatus.Timeout ∧
      (classifiedExec env ws job).error ≠ none) ∧
    (∀ m, env.timedOut = false → job.job_type = JobType.Shell →
      env.shellResult = Except.error m →
      (classifiedExec env ws job).status = ExecutionStatus.Failed ∧
      (classifiedExec env ws job).error =
        some ("Failed to execute command: " ++ m)) ∧
    (∀ code out err, env.timedOut = false → job.job_type = JobType.Shell →
      env.shellResult = Except.ok (code, out, err) → code ≠ 0 →
      (classifiedExec env ws job).status = ExecutionStatus.Failed) ∧
    (env.timedOut = false → job.job_type = JobType.Agent →
      env.agent_executor = none →
      (classifiedExec env ws job).status = ExecutionStatus.Failed ∧
      (classifiedExec env ws job).error ≠ none) := by
  refine ⟨?_, ?_, ?_, ?_, ?_, ?_⟩
  · intro e he
    unfold run_job at he
    cases hl : st.load_job s id with
    | error m =>
      rw [hl] at he
      exact Or.inr ⟨m, (Except.error.inj he).symm⟩
    | ok o =>
      rw [hl] at he
      cases o with
      | none => exact Or.inl ⟨id, (Except.error.inj he).symm⟩
      | some j =>
        exact Or.inr (execute_job_error_storage st parse ws env s j e he)
  · unfold run_job
    have hl : memStore.load_job ms id = Except.ok (some job) := by
      simp [memStore, hfind]
    rw [hl]
    exact congrArg ExecResult.result (execute_job_memStore_eq parse ws env ms job)
  · intro ht
    unfold classifiedExec
    rw [classifyBody_timedOut env job _ _ ht]
    simp [JobExecution.timeout]
  · intro m ht hty hio
    unfold classifiedExec
    rw [classifyBody_shell_io_failure env job _ _ m ht hty hio]
    simp [JobExecution.fail]
  · intro code out err ht hty hres hcode
    unfold classifiedExec
    rw [classifyBody_shell_completed env job _ _ code out err ht hty hres]
    simp [JobExecution.complete, hcode]
  · intro ht hty hnoex
    unfold classifiedExec
    rw [classifyBody_agent_no_executor env job _ _ ht hty hnoex]
    simp [JobExecution.fail]

/-- Claim C7 witness: the theorem applied at a concrete store holding
one job and a concrete environment whose timeout elapsed. -/
theorem C7_run_job_error_kinds_witness :
    (run_job memStore (fun _ => none) "/ws" envT ⟨[jobA], []⟩ "job-1").result =
      Except.ok (classifiedExec envT "/ws" jobA) ∧
    (classifiedExec envT "/ws" jobA).status = ExecutionStatus.Timeout := by
  obtain ⟨-, hok, hto, -, -, -⟩ :=
    C7_run_job_error_kinds memStore (fun _ => none) "/ws" envT
      (⟨[jobA], []⟩ : MemState) "job-1" ⟨[jobA], []⟩ jobA (by rfl)
  exact ⟨hok, (hto rfl).1⟩

/-- Claim C2: after `execute_job` completes and persists the job, the
persisted job has status `Active` (in particular not `Running`),
`last_run` equal to the execution's `started_at`, a refreshed
`updated_at`, `run_count` bumped by exactly one iff the execution
succeeded and `fail_count` bumped by exactly one otherwise, and
`next_run` recomputed as `next_after(now)`, left unchanged exactly
when the schedule fails to parse (shown over the in-memory store). -/
theorem C2_execute_job_persisted_job (parse : String → Option CronExpr)
    (ws : String) (env : ExecEnv) (s : MemState) (job : CronJob)
    (ex : JobExecution)
    (h : (execute_job memStore parse ws env s job).result = Except.ok ex) :
    (execute_job memStore parse ws env s job).state.jobs.find?
        (fun x => x.id == job.id) =
      some (updateStats parse job ex env.finishNow).1 ∧
    (updateStats parse job ex env.finishNow).1.status = JobStatus.Active ∧
    (updateStats parse job ex env.finishNow).1.status ≠ JobStatus.Running ∧
    (updateStats parse job ex env.finishNow).1.last_run = some ex.started_at ∧
    (updateStats parse job ex env.finishNow).1.updated_at = env.finishNow ∧
    (ex.status = ExecutionStatus.Success →
      (updateStats parse job ex env.finishNow).1.run_count = job.run_count + 1 ∧
      (updateStats parse job ex env.finishNow).1.fail_count = job.fail_count) ∧
    (ex.status ≠ ExecutionStatus.Success →
      (updateStats parse job ex env.finishNow).1.fail_count = job.fail_count + 1 ∧
      (updateStats parse job ex env.finishNow).1.run_count = job.run_count) ∧
    (∀ expr, parse job.schedule = some expr →
      (updateStats parse job ex env.finishNow).1.next_run =
        expr.next_after env.finishNow) ∧
    (parse job.schedule = none →
      (updateStats parse job ex env.finishNow).1.next_run = job.next_run) := by
  rw [execute_job_memStore_eq] at h
  have hex : classifiedExec env ws job = ex := by
    simpa using h
  obtain ⟨hid, -, -, -, -, -, -, -, -, hstat, hlast, -, hupd⟩ :=
    updateStats_fields parse job ex env.finishNow
  refine ⟨?_, hstat, ?_, hlast, hupd, ?_, ?_, ?_, ?_⟩
  · rw [execute_job_memStore_eq, hex]
    exact find_upsertJob_of_id _ _ _ hid
  · rw [hstat]
    simp
  · exact fun hs => updateStats_success parse job ex env.finishNow hs
  · exact fun hs => updateStats_not_success parse job ex env.finishNow hs
  · exact fun expr hp => updateStats_next_run_parsed parse job ex env.finishNow expr hp
  · exact fun hp => updateStats_next_run_unparsed parse job ex env.finishNow hp

/-- A concrete execution as the pipeline records a zero-exit shell
body. -/
def exA : JobExecution :=
  (JobExecution.new "exec-1" "job-1" 100).complete 0 "hi" "" 101

/-- Claim C2 witness: the theorem applied to a concrete successful
shell run over the in-memory store. -/
theorem C2_execute_job_persisted_job_witness :
    (execute_job memStore (fun _ => none) "/ws" envA ⟨[], []⟩ jobA).state.jobs.find?
        (fun x => x.id == jobA.id) =
      some (updateStats (fun _ => none) jobA exA 101).1 ∧
    (updateStats (fun _ => none) jobA exA 101).1.status = JobStatus.Active := by
  obtain ⟨h1, h2, -⟩ :=
    C2_execute_job_persisted_job (fun _ => none) "/ws" envA ⟨[], []⟩ jobA exA rfl
  exact ⟨h1, h2⟩

/-- Claim C3: for an agent-mode job with a registered executor and a
present agent_config, an executor `Ok text` yields an execution with
exit code 0, stdout `text`, empty stderr and status `Success`; an
executor `Err message` yields exit code 1, empty stdout, stderr
`message` and status `Failed`. -/
theorem C3_agent_result_mapping (parse : String → Option CronExpr)
    (ws : String) (env : ExecEnv) (s : MemState) (job : CronJob)
    (config : AgentJobConfig) (exec : AgentExecutor)
    (hty : job.job_type = JobType.Agent)
    (hcfg : job.agent_config = some config)
    (hexec : env.agent_executor = some exec)
    (ht : env.timedOut = false) :
    (∀ text, exec config job.command (job.working_dir.getD ws) = Except.ok text →
      (execute_job memStore parse ws env s job).result =
        Except.ok ((JobExecution.new env.execId job.id env.startNow).complete
          0 text "" env.finishNow) ∧
      ((JobExecution.new env.execId job.id env.startNow).complete
        0 text "" env.finishNow).exit_code = some 0 ∧
      ((JobExecution.new env.execId job.id env.startNow).complete
        0 text "" env.finishNow).stdout = text ∧
      ((JobExecution.new env.execId job.id env.startNow).complete
        0 text "" env.finishNow).stderr = "" ∧
      ((JobExecution.new env.execId job.id env.startNow).complete
        0 text "" env.finishNow).status = ExecutionStatus.Success) ∧
    (∀ msg, exec config job.command (job.working_dir.getD ws) = Except.error msg →
      (execute_job memStore parse ws env s job).result =
        Except.ok ((JobExecution.new env.execId job.id env.startNow).complete
          1 "" msg env.finishNow) ∧
      ((JobExecution.new env.execId job.id env.startNow).complete
        1 "" msg env.finishNow).exit_code = some 1 ∧
      ((JobExecution.new env.execId job.id env.startNow).complete
        1 "" msg env.finishNow).stdout = "" ∧
      ((JobExecution.new env.execId job.id env.startNow).complete
        1 "" msg env.finishNow).stderr = msg ∧
      ((JobExecution.new env.execId job.id env.startNow).complete
        1 "" msg env.finishNow).status = ExecutionStatus.Failed) := by
  constructor
  · intro text hok
    have hc := classifyBody_agent_ok env job
      (JobExecution.new env.execId job.id env.startNow)
      (job.working_dir.getD ws) config exec text ht hty hexec hcfg hok
    refine ⟨?_, ?_, ?_, ?_, ?_⟩
    · rw [execute_job_memStore_eq]
      simp only [classifiedExec, hc]
    · simp [JobExecution.complete]
    · simp [JobExecution.complete]
    · simp [JobExecution.complete]
    · simp [JobExecution.complete]
  · intro msg herr
    have hc := classifyBody_agent_err env job
      (JobExecution.new env.execId job.id env.startNow)
      (job.working_dir.getD ws) config exec msg ht hty hexec hcfg herr
    refine ⟨?_, ?_, ?_, ?_, ?_⟩
    · rw [execute_job_memStore_eq]
      simp only [classifiedExec, hc]
    · simp [JobExecution.complete]
    · simp [JobExecution.complete]
    · simp [JobExecution.complete]
    · simp [JobExecution.complete]

/-- A concrete agent configuration. -/
def cfgA : AgentJobConfig :=
  { model := "m"
    api_key := "k"
    workspace := none
    system_prompt := none
    base_url := none }

/-- A concrete agent executor that always returns text. -/
def agentExecA : AgentExecutor := fun _ _ _ => Except.ok "done"

/-- A concrete agent-mode job. -/
def jobAgentA : CronJob :=
  { jobA with
    id := "job-2"
    name := "agent"
    job_type := JobType.Agent
    agent_config := some cfgA }

/-- A concrete environment with the agent executor registered. -/
def envAgentA : ExecEnv := { envA with agent_executor := some agentExecA }

/-- Claim C3 witness: the theorem applied to a concrete agent job
whose executor returns text. -/
theorem C3_agent_result_mapping_witness :
    (execute_job memStore (fun _ => none) "/ws" envAgentA ⟨[], []⟩ jobAgentA).result =
      Except.ok ((JobExecution.new "exec-1" "job-2" 100).complete 0 "done" "" 101) ∧
    ((JobExecution.new "exec-1" "job-2" 100).complete 0 "done" "" 101).status =
      ExecutionStatus.Success := by
  obtain ⟨hok, -⟩ :=
    C3_agent_result_mapping (fun _ => none) "/ws" envAgentA ⟨[], []⟩ jobAgentA
      cfgA agentExecA rfl rfl rfl rfl
  obtain ⟨h1, -, -, -, h5⟩ := hok "done" rfl
  exact ⟨h1, h5⟩

/-- Claim C9: `run_job` on a job whose stored status is `Paused` or
`Disabled` does not refuse or skip the run — it executes the job and
persists it with status `Active`, silently reactivating it (shown
over the in-memory store). -/
theorem C9_run_job_reactivates (parse : String → Option CronExpr)
    (ws : String) (env : ExecEnv) (ms : MemState) (job : CronJob)
    (hfind : ms.jobs.find? (fun x => x.id == job.id) = some job)
    (_hst : job.status = JobStatus.Paused ∨ job.status = JobStatus.Disabled) :
    (run_job memStore parse ws env ms job.id).result =
      Except.ok (classifiedExec env ws job) ∧
    (run_job memStore parse ws env ms job.id).state.jobs.find?
        (fun x => x.id == job.id) =
      some (updateStats parse job (classifiedExec env ws job) env.finishNow).1 ∧
    (updateStats parse job (classifiedExec env ws job) env.finishNow).1.status =
      JobStatus.Active := by
  have hrn : run_job memStore parse ws env ms job.id =
      execute_job memStore parse ws env ms job := by
    unfold run_job
    have hl : memStore.load_job ms job.id = Except.ok (some job) := by
      simp [memStore, hfind]
    rw [hl]
  obtain ⟨hid, -, -, -, -, -, -, -, -, hstat, -, -, -⟩ :=
    updateStats_fields parse job (classifiedExec env ws job) env.finishNow
  refine ⟨?_, ?_, hstat⟩
  · rw [hrn, execute_job_memStore_eq]
  · rw [hrn, execute_job_memStore_eq]
    exact find_upsertJob_of_id _ _ _ hid

/-- A concrete paused job stored under id `job-3`. -/
def jobP : CronJob :=
  { jobA with id := "job-3", name := "paused", status := JobStatus.Paused }

/-- Claim C9 witness: the theorem applied to a concrete paused job. -/
theorem C9_run_job_reactivates_witness :
    (run_job memStore (fun _ => none) "/ws" envA ⟨[jobP], []⟩ "job-3").result =
      Except.ok (classifiedExec envA "/ws" jobP) ∧
    (updateStats (fun _ => none) jobP (classifiedExec envA "/ws" jobP) 101).1.status =
      JobStatus.Active := by
  obtain ⟨h1, -, h3⟩ :=
    C9_run_job_reactivates (fun _ => none) "/ws" envA ⟨[jobP], []⟩ jobP
      rfl (Or.inl rfl)
  exact ⟨h1, h3⟩

/-- A concrete cron expression whose next fire time is always sixty
units ahead. -/
def exprB : CronExpr := { next_after := fun t => some (t + 60) }

/-- A concrete parse function that accepts every schedule as
`exprB`. -/
def parseB : String → Option CronExpr := fun _ => some exprB

/-- Claim C4: `add_job` returns `InvalidSchedule` when the schedule
does not parse; with a parsing schedule it returns `JobExists(name)`
when a job with that name already exists; otherwise it persists and
returns a job with `next_run = next_after(now)`, `working_dir` set to
the manager workspace, status `Active` and zero counters (shown over
the in-memory store). -/
theorem C4_add_job_spec (parse : String → Option CronExpr)
    (ws : String) (freshId : String) (now : Nat) (ms : MemState)
    (name : String) (schedule : String) (command : String) :
    (parse schedule = none →
      add_job memStore parse ws freshId now ms name schedule command =
        ⟨Except.error (CronError.InvalidSchedule schedule), ms⟩) ∧
    (∀ expr j, parse schedule = some expr →
      ms.jobs.find? (fun x => x.name == name) = some j →
      add_job memStore parse ws freshId now ms name schedule command =
        ⟨Except.error (CronError.JobExists name), ms⟩) ∧
    (∀ expr, parse schedule = some expr →
      ms.jobs.find? (fun x => x.name == name) = none →
      add_job memStore parse ws freshId now ms name schedule command =
        ⟨Except.ok { CronJob.new freshId name schedule command now with
            next_run := expr.next_after now, working_dir := some ws },
         ⟨upsertJob ms.jobs
            ({ CronJob.new freshId name schedule command now with
              next_run := expr.next_after now, working_dir := some ws }),
          ms.execs⟩⟩ ∧
      ({ CronJob.new freshId name schedule command now with
          next_run := expr.next_after now,
          working_dir := some ws } : CronJob).status = JobStatus.Active ∧
      ({ CronJob.new freshId name schedule command now with
          next_run := expr.next_after now,
          working_dir := some ws } : CronJob).run_count = 0 ∧
      ({ CronJob.new freshId name schedule command now with
          next_run := expr.next_after now,
          working_dir := some ws } : CronJob).fail_count = 0) := by
  refine ⟨?_, ?_, ?_⟩
  · intro hp
    simp [add_job, parseE, hp]
  · intro expr j hp hf
    simp [add_job, parseE, hp, memStore, hf]
  · intro expr hp hf
    refine ⟨?_, rfl, rfl, rfl⟩
    simp [add_job, parseE, hp, memStore, hf]

/-- Claim C4 witness: the theorem applied at a fresh name over the
empty store. -/
theorem C4_add_job_spec_witness :
    add_job memStore parseB "/ws" "id-9" 0 ⟨[], []⟩ "n" "* * * * *" "echo" =
      ⟨Except.ok { CronJob.new "id-9" "n" "* * * * *" "echo" 0 with
          next_run := exprB.next_after 0, working_dir := some "/ws" },
       ⟨[{ CronJob.new "id-9" "n" "* * * * *" "echo" 0 with
          next_run := exprB.next_after 0, working_dir := some "/ws" }], []⟩⟩ ∧
    ({ CronJob.new "id-9" "n" "* * * * *" "echo" 0 with
        next_run := exprB.next_after 0,
        working_dir := some "/ws" } : CronJob).status = JobStatus.Active := by
  obtain ⟨-, -, hc⟩ :=
    C4_add_job_spec parseB "/ws" "id-9" 0 ⟨[], []⟩ "n" "* * * * *" "echo"
  obtain ⟨h1, h2, -, -⟩ := hc exprB rfl rfl
  exact ⟨h1, h2⟩

/-- Claim C5 counterexample: `resume_job` on a job whose status is
already `Active` is not a no-op apart from `updated_at` — at this
concrete input it also changes `next_run`, recomputing it from now. -/
theorem C5_resume_changes_next_run :
    jobA.status = JobStatus.Active ∧
    (resume_job memStore parseB 500 ⟨[jobA], []⟩ "job-1").result =
      Except.ok { jobA with updated_at := 500, next_run := some 560 } ∧
    ({ jobA with updated_at := 500, next_run := some 560 } : CronJob).next_run ≠
      jobA.next_run :=
  ⟨rfl, rfl, by decide⟩

/-- Claim C5 (amended): `pause_job` on an already paused job changes
nothing except `updated_at`; `resume_job` on an already active job
changes nothing except `updated_at` and `next_run`, the latter
recomputed as `next_after(now)` when the schedule parses and left
unchanged otherwise (shown over the in-memory store). -/
theorem C5_pause_resume_idempotent (parse : String → Option CronExpr)
    (now : Nat) (ms : MemState) (id : String) (job : CronJob)
    (hload : ms.jobs.find? (fun x => x.id == id) = some job) :
    (job.status = JobStatus.Paused →
      pause_job memStore now ms id =
        ⟨Except.ok { job with updated_at := now },
         { ms with jobs := upsertJob ms.jobs { job with updated_at := now } }⟩) ∧
    (job.status = JobStatus.Active →
      (∀ expr, parse job.schedule = some expr →
        resume_job memStore parse now ms id =
          ⟨Except.ok { job with updated_at := now, next_run := expr.next_after now },
           ⟨upsertJob ms.jobs
              ({ job with updated_at := now, next_run := expr.next_after now }),
            ms.execs⟩⟩) ∧
      (parse job.schedule = none →
        resume_job memStore parse now ms id =
          ⟨Except.ok { job with updated_at := now },
           { ms with jobs := upsertJob ms.jobs { job with updated_at := now } }⟩)) := by
  have hl : memStore.load_job ms id = Except.ok (some job) := by
    simp [memStore, hload]
  refine ⟨?_, ?_⟩
  · intro hp
    have hj : ({ job with status := JobStatus.Paused, updated_at := now } : CronJob)
        = { job with updated_at := now } := by
      cases job
      simp_all
    unfold pause_job
    rw [hl]
    simp only [memStore, hj]
  · intro ha
    constructor
    · intro expr hp
      unfold resume_job
      rw [hl]
      simp only [memStore, hp]
      rw [ha]
    · intro hp
      unfold resume_job
      rw [hl]
      simp only [memStore, hp]
      rw [ha]

/-- Claim C5 witness: the amended theorem applied to a concrete paused
job. -/
theorem C5_pause_resume_idempotent_witness :
    pause_job memStore 7 ⟨[jobP], []⟩ "job-3" =
      ⟨Except.ok { jobP with updated_at := 7 },
       ⟨[{ jobP with updated_at := 7 }], []⟩⟩ := by
  obtain ⟨hp, -⟩ :=
    C5_pause_resume_idempotent parseB 7 ⟨[jobP], []⟩ "job-3" jobP rfl
  exact hp rfl

/-- Claim C6: `update_job` modifies only the supplied fields — with
`next_run` recomputed from now exactly when a schedule is supplied —
refreshes `updated_at`, and leaves every other field of the job
unchanged (shown over the in-memory store; a supplied schedule is
assumed to parse, since otherwise `update_job` rejects it before
modifying anything). -/
theorem C6_update_job_frame (parse : String → Option CronExpr)
    (now : Nat) (ms : MemState) (id : String) (job : CronJob)
    (sch : Option String) (cmd : Option String) (tmo : Option Nat)
    (hload : ms.jobs.find? (fun x => x.id == id) = some job)
    (hsch : ∀ s2, sch = some s2 → parse s2 ≠ none) :
    ∃ j, (update_job memStore parse now ms id sch cmd tmo).result = Except.ok j ∧
      j.id = job.id ∧ j.name = job.name ∧ j.status = job.status ∧
      j.job_type = job.job_type ∧ j.agent_config = job.agent_config ∧
      j.working_dir = job.working_dir ∧ j.env = job.env ∧
      j.run_count = job.run_count ∧ j.fail_count = job.fail_count ∧
      j.last_run = job.last_run ∧ j.created_at = job.created_at ∧
      j.updated_at = now ∧
      j.schedule = sch.getD job.schedule ∧
      j.command = cmd.getD job.command ∧
      j.timeout_ms = tmo.getD job.timeout_ms ∧
      (sch = none → j.next_run = job.next_run) ∧
      (∀ s2 expr, sch = some s2 → parse s2 = some expr →
        j.next_run = expr.next_after now) := by
  have hl : memStore.load_job ms id = Except.ok (some job) := by
    simp [memStore, hload]
  unfold update_job
  rw [hl]
  cases sch with
  | none =>
    cases cmd <;> cases tmo <;> exact ⟨_, rfl, by simp⟩
  | some s2 =>
    cases hps : parse s2 with
    | none => exact absurd hps (hsch s2 rfl)
    | some expr =>
      simp only [parseE, hps]
      cases cmd <;> cases tmo <;> exact ⟨_, rfl, by
        simp [hps]
        intro s2a expra h1 h2
        subst h1
        rw [hps] at h2
        injection h2 with h3
        subst h3
        rfl⟩

/-- Claim C6 witness: the theorem applied with all three fields
supplied on a concrete job. -/
theorem C6_update_job_frame_witness :
    ∃ j, (update_job memStore parseB 9 ⟨[jobA], []⟩ "job-1"
        (some "0 5 * * *") (some "echo v2") (some 30000)).result = Except.ok j ∧
      j.status = jobA.status ∧ j.updated_at = 9 ∧ j.command = "echo v2" := by
  obtain ⟨j, hok, -, -, hstatus, -, -, -, -, -, -, -, -, hupd, -, hcmd, -, -, -⟩ :=
    C6_update_job_frame parseB 9 ⟨[jobA], []⟩ "job-1" jobA
      (some "0 5 * * *") (some "echo v2") (some 30000) rfl
      (fun s2 _ => by simp [parseB])
  exact ⟨j, hok, hstatus, hupd, by simpa using hcmd⟩

/-- The due check of the tick loop as a proposition. -/
theorem dueNow_iff (now : Nat) (job : CronJob) :
    dueNow now job = true ↔
      job.status = JobStatus.Active ∧ ∃ t, job.next_run = some t ∧ t ≤ now := by
  unfold dueNow
  cases h : job.next_run <;> simp [h]

/-- Claim C8: one tick of the scheduler loop dispatches `execute_job`
exactly for the listed jobs whose status is `Active` and whose
`next_run` is present and at or before now — a job with another
status, an absent `next_run` or a future `next_run` is never
dispatched — and a `list_jobs` failure skips the tick, dispatching
nothing, while the loop continues. -/
theorem C8_tick_dispatch (runningFlag : Bool) (jobs : List CronJob)
    (now : Nat) (msg : String) (job : CronJob)
    (hrun : runningFlag = true) :
    (job ∈ (tick runningFlag (Except.ok jobs) now).dispatched ↔
      job ∈ jobs ∧ job.status = JobStatus.Active ∧
        ∃ t, job.next_run = some t ∧ t ≤ now) ∧
    tick runningFlag (Except.error msg) now = ⟨[], true⟩ := by
  subst hrun
  constructor
  · simp [tick, List.mem_filter, dueNow_iff, and_assoc]
  · rfl

/-- Claim C8 witness: the theorem applied to a one-job list with a due
job. -/
theorem C8_tick_dispatch_witness :
    (jobA ∈ (tick true (Except.ok [jobA]) 100).dispatched ↔
      jobA ∈ [jobA] ∧ jobA.status = JobStatus.Active ∧
        ∃ t, jobA.next_run = some t ∧ t ≤ 100) ∧
    tick true (Except.error "boom") 100 = ⟨[], true⟩ :=
  C8_tick_dispatch true [jobA] 100 "boom" jobA rfl

end CronSpec
